import Mathlib

/-!
Verification of the Neko rwa-lending pool contract
(`apps/contracts/stellar-contracts/rwa-lending/src`).

This file gives a shallow embedding of the interest-accrual engine
(`operations/interest.rs`), the liquidation auction engine
(`operations/liquidations.rs`), the bad-debt auction engine
(`operations/bad_debt.rs`), the interest auction engine
(`operations/interest_auction.rs`), the oracle price validation
(`operations/oracles.rs`), the fixed-point rounding helpers
(`common/types.rs`) and the storage access layer (`common/storage.rs`),
and proves or refutes the specification claims about them.

Modelling conventions:
- `i128` values are modelled as `Int`; the `checked_*` operations carry the
  explicit `i128` range check and return `Except Error Int`, mirroring
  `x.checked_mul(y).ok_or(Error::ArithmeticError)?`.  Unchecked Rust `i128`
  arithmetic (`+=`, `-`) is modelled as plain `Int` arithmetic,
  `saturating_sub` saturates at the `i128` bounds (not at zero).
- Rust integer division truncates toward zero, so `/` on `i128` is `Int.tdiv`.
- `u32`/`u64` quantities (timestamps, ledger sequences, basis-point
  parameters) are modelled as `Nat`.
- Soroban `Map` objects are modelled as association lists with
  first-match lookup (`mget`), in-place replace-or-append update (`mset`)
  and key removal (`mdel`); `Map::keys()` is the list of keys.
- The contract's instance storage is one `PoolStorage` document and the
  per-borrower CDPs live in persistent storage; together they form a
  `Chain` value.  Each `Storage::*` accessor performs the same whole
  document read-modify-write as the source.  Contract entry points return
  `Except Error Chain`: an error aborts the call and (per the host's
  transactional semantics) leaves the chain state unchanged, so only the
  `.ok` state is observable.
- External collaborators (token transfers, authorization, events) do not
  touch the pool state and are omitted; oracle contracts are modelled as an
  `OracleEnv` of price lookups.
-/

/-- Error codes used by the rwa-lending contract (from `common/error.rs`,
as referenced throughout the operations modules). -/
inductive Error
  | ArithmeticError
  | CDPNotInsolvent
  | InsufficientCollateral
  | AuctionNotFound
  | AuctionNotActive
  | DebtAssetNotSet
  | HealthFactorTooHigh
  | TokenContractNotSet
  | InvalidFillPercent
  | OraclePriceFetchFailed
  | InvalidOraclePrice
  | NotInitialized
  deriving DecidableEq, Repr

/-- Result type of contract operations: success or a typed error. -/
abbrev R (α : Type) : Type := Except Error α

deriving instance DecidableEq for Except

/-- Smallest `i128` value. -/
def I128_MIN : Int := -(2 ^ 127)

/-- Largest `i128` value. -/
def I128_MAX : Int := 2 ^ 127 - 1

/-- Range check shared by the `checked_*` arithmetic model. -/
def ck (v : Int) : R Int :=
  if v < I128_MIN ∨ I128_MAX < v then .error .ArithmeticError else .ok v

/-- Embeds `a.checked_add(b).ok_or(Error::ArithmeticError)` on `i128`. -/
def ckAdd (a b : Int) : R Int := ck (a + b)

/-- Embeds `a.checked_sub(b).ok_or(Error::ArithmeticError)` on `i128`. -/
def ckSub (a b : Int) : R Int := ck (a - b)

/-- Embeds `a.checked_mul(b).ok_or(Error::ArithmeticError)` on `i128`. -/
def ckMul (a b : Int) : R Int := ck (a * b)

/-- Embeds `a.checked_div(b).ok_or(Error::ArithmeticError)` on `i128`:
fails on division by zero (and on the single overflowing case),
otherwise truncates toward zero. -/
def ckDiv (a b : Int) : R Int :=
  if b = 0 ∨ (a = I128_MIN ∧ b = -1) then .error .ArithmeticError
  else .ok (a.tdiv b)

/-- Embeds `a.saturating_sub(b)` on `i128`: saturates at the numeric bounds
(`i128::MIN`/`i128::MAX`), not at zero. -/
def satSub (a b : Int) : Int := max I128_MIN (min I128_MAX (a - b))

/-- The Rust cast `v as u32` applied to an `i128` value: keep the low 32 bits. -/
def asU32 (v : Int) : Nat := (v % (2 ^ 32)).toNat

/-- Embeds `u32::MAX` as an `i128` value. -/
def U32_MAX : Int := 4294967295

/-- Embeds `x.clamp(lo, hi)` on `i128`. -/
def clampI (x lo hi : Int) : Int := if x < lo then lo else if hi < x then hi else x

/-- Embeds `opt.ok_or(e)?`. -/
def ofOpt {α : Type} (o : Option α) (e : Error) : R α :=
  match o with
  | some a => .ok a
  | none => .error e

/-- Association-list lookup, modelling soroban `Map::get`. -/
def mget {κ ν : Type} [DecidableEq κ] : List (κ × ν) → κ → Option ν
  | [], _ => none
  | (k', v) :: rest, k => if k' = k then some v else mget rest k

/-- Association-list update, modelling soroban `Map::set`
(replace the existing entry or append a new one). -/
def mset {κ ν : Type} [DecidableEq κ] : List (κ × ν) → κ → ν → List (κ × ν)
  | [], k, v => [(k, v)]
  | (k', v') :: rest, k, v =>
    if k' = k then (k, v) :: rest else (k', v') :: mset rest k v

/-- Association-list removal, modelling soroban `Map::remove`. -/
def mdel {κ ν : Type} [DecidableEq κ] : List (κ × ν) → κ → List (κ × ν)
  | [], _ => []
  | (k', v') :: rest, k =>
    if k' = k then mdel rest k else (k', v') :: mdel rest k

/-- The key list of a map, modelling soroban `Map::keys`. -/
def mkeys {κ ν : Type} (m : List (κ × ν)) : List κ := m.map Prod.fst

/-- Embeds `keys.get(0).ok_or(e)?` preceded by the `is_empty` check, as the
auction fill paths read the first lot/bid entry. -/
def firstKey {κ ν : Type} (m : List (κ × ν)) (e : Error) : R κ :=
  match mkeys m with
  | [] => .error e
  | k :: _ => .ok k

/-- The 7-decimal fixed point scale (`common/types.rs`). -/
def SCALAR_7 : Int := 10000000

/-- The 12-decimal fixed point scale (`common/types.rs`). -/
def SCALAR_12 : Int := 1000000000000

/-- Seconds per year (`common/types.rs`). -/
def SECONDS_PER_YEAR : Nat := 31536000

/-- Maximum health factor allowed after a liquidation, 7 decimals
(`common/types.rs`). -/
def MAX_HEALTH_FACTOR : Int := 11500000

/-- Dutch auction duration in blocks (`common/types.rs`). -/
def AUCTION_DURATION_BLOCKS : Nat := 200

/-- Ledger view of the environment: `env.ledger().timestamp()` and
`env.ledger().sequence()`. -/
structure Ledger where
  timestamp : Nat
  sequence : Nat
  deriving DecidableEq, Repr

/-- Interest rate parameters, 7 decimals (`common/types.rs`). -/
structure InterestRateParams where
  target_util : Nat
  max_util : Nat
  r_base : Nat
  r_one : Nat
  r_two : Nat
  r_three : Nat
  reactivity : Nat
  deriving DecidableEq, Repr

/-- Reserve state data for an asset (`common/types.rs`). -/
structure ReserveData where
  b_rate : Int
  d_rate : Int
  ir_mod : Int
  b_supply : Int
  d_supply : Int
  backstop_credit : Int
  last_time : Nat
  deriving DecidableEq, Repr

/-- Embeds `ReserveData::new`: fresh reserve with 1:1 rates. -/
def ReserveData.new (timestamp : Nat) : ReserveData :=
  { b_rate := SCALAR_12
    d_rate := SCALAR_12
    ir_mod := SCALAR_7
    b_supply := 0
    d_supply := 0
    backstop_credit := 0
    last_time := timestamp }

/-- A collateralized debt position (`common/types.rs`).  Addresses and
symbols are modelled as `Nat`. -/
structure CDP where
  collateral : List (Nat × Int)
  debt_asset : Option Nat
  d_tokens : Int
  created_at : Nat
  last_update : Nat
  deriving DecidableEq, Repr

/-- Auction kind (`common/types.rs`). -/
inductive AuctionType
  | UserLiquidation
  | BadDebt
  | Interest
  deriving DecidableEq, Repr

/-- Dutch auction data, one unified shape for all three kinds
(`common/types.rs`). -/
structure AuctionData where
  auction_type : AuctionType
  user : Nat
  bid : List (Nat × Int)
  lot : List (Nat × Int)
  block : Nat
  deriving DecidableEq, Repr

/-- Oracle price data (`common/types.rs`). -/
structure PriceData where
  price : Int
  timestamp : Nat
  deriving DecidableEq, Repr

/-- Interest rate calculations and accrual (`operations/interest.rs`). -/
def Interest.calculate_utilization_internal (reserve : ReserveData) : R Int := do
  if reserve.b_supply = 0 then return 0
  let total_supply ← ckMul reserve.b_supply reserve.b_rate >>= fun x => ckDiv x SCALAR_12
  if total_supply = 0 then return 0
  let total_liabilities ← ckMul reserve.d_supply reserve.d_rate >>= fun x => ckDiv x SCALAR_12
  if total_supply ≤ total_liabilities then return SCALAR_7
  let utilization ← ckMul total_liabilities SCALAR_7 >>= fun x => ckDiv x total_supply
  return min utilization SCALAR_7

/-- The 3-segment piecewise-linear interest rate of `Interest::calc_accrual`
(lines 119-188 of `operations/interest.rs`): the `let interest_rate = if ...`
expression, 7 decimals.  Segments 1 and 2 are scaled by `ir_mod / SCALAR_7`;
segment 3 deliberately is not. -/
def Interest.segment_rate (params : InterestRateParams) (cur_util ir_mod : Int) : R Int := do
  let target_util : Int := params.target_util
  let max_util : Int := params.max_util
  let r_base : Int := params.r_base
  let r_one : Int := params.r_one
  let r_two : Int := params.r_two
  let r_three : Int := params.r_three
  if cur_util ≤ target_util then do
    let rate ←
      if 0 < target_util then do
        let x ← ckMul cur_util r_one
        let y ← ckDiv x target_util
        ckAdd y r_base
      else pure r_base
    let z ← ckMul rate ir_mod
    ckDiv z SCALAR_7
  else if cur_util ≤ max_util then do
    let util_diff ← ckSub cur_util target_util
    let range ← ckSub max_util target_util
    let rate ←
      if 0 < range then do
        let x ← ckMul util_diff r_two
        let y ← ckDiv x range
        let z ← ckAdd y r_one
        ckAdd z r_base
      else ckAdd r_one r_base
    let z ← ckMul rate ir_mod
    ckDiv z SCALAR_7
  else do
    let util_diff ← ckSub cur_util max_util
    let range ← ckSub SCALAR_7 max_util
    if 0 < range then do
      let x ← ckMul util_diff r_three
      let y ← ckDiv x range
      let z1 ← ckAdd y r_two
      let z2 ← ckAdd z1 r_one
      ckAdd z2 r_base
    else do
      let z1 ← ckAdd r_three r_two
      let z2 ← ckAdd z1 r_one
      ckAdd z2 r_base

/-- Embeds `Interest::calc_accrual`: accrual ratio (12 decimals) and new interest
rate modifier (7 decimals, clamped to `[SCALAR_7/10, SCALAR_7*10]`). -/
def Interest.calc_accrual (params : InterestRateParams) (cur_util ir_mod : Int)
    (last_time current_time : Nat) : R (Int × Int) := do
  let delta_time : Nat := current_time - last_time
  if delta_time = 0 then return (SCALAR_12, ir_mod)
  let target_util : Int := params.target_util
  let reactivity : Int := params.reactivity
  let interest_rate ← Interest.segment_rate params cur_util ir_mod
  let time_weight_numerator ← ckMul (delta_time : Int) interest_rate >>= fun x => ckMul x SCALAR_12
  let time_weight_denominator ← ckMul (SECONDS_PER_YEAR : Int) SCALAR_7
  let accrual_increase ← ckDiv time_weight_numerator time_weight_denominator
  let accrual ← ckAdd SCALAR_12 accrual_increase
  let util_dif ← ckSub cur_util target_util
  let ir_mod_change ← ckMul (delta_time : Int) util_dif >>= fun x =>
    ckMul x reactivity >>= fun y => ckDiv y SCALAR_7
  let new_ir_mod_raw ← ckAdd ir_mod ir_mod_change
  let min_ir_mod : Int := SCALAR_7 / 10
  let max_ir_mod : Int := SCALAR_7 * 10
  return (accrual, clampI new_ir_mod_raw min_ir_mod max_ir_mod)

/-- The backstop-take block of `Interest::apply_accrual` (lines 255-277 of
`operations/interest.rs`): when the take rate and the debt supply are
positive, credit the backstop with its share of the interest earned. -/
def Interest.take_backstop_credit (r1 : ReserveData) (old_d_rate btr : Int) :
    R ReserveData :=
  if 0 < btr ∧ 0 < r1.d_supply then do
    let rate_increase ← ckSub r1.d_rate old_d_rate
    let interest_earned ← ckMul r1.d_supply rate_increase >>= fun x => ckDiv x SCALAR_12
    let backstop_credit ← ckMul interest_earned btr >>= fun x => ckDiv x SCALAR_7
    pure { r1 with backstop_credit := r1.backstop_credit + backstop_credit }
  else pure r1

/-- The lender-growth block of `Interest::apply_accrual` (lines 279-317 of
`operations/interest.rs`): when bTokens exist, grow `b_rate` by the accrual
reduced by the backstop's share. -/
def Interest.grow_b_rate (r2 : ReserveData) (btr accrual : Int) : R ReserveData :=
  if 0 < r2.b_supply then do
    let lender_accrual ←
      if 0 < btr then do
        let lender_portion ← ckSub SCALAR_7 btr
        let accrual_increase ← ckSub accrual SCALAR_12
        let lender_increase ← ckMul accrual_increase lender_portion >>= fun x => ckDiv x SCALAR_7
        ckAdd SCALAR_12 lender_increase
      else pure accrual
    let new_b_rate ← ckMul r2.b_rate lender_accrual >>= fun x => ckDiv x SCALAR_12
    pure { r2 with b_rate := new_b_rate }
  else pure r2

/-- Embeds `Interest::apply_accrual`: apply the accrual ratio to a reserve,
updating `d_rate`, `backstop_credit`, `b_rate`, `ir_mod` and `last_time`. -/
def Interest.apply_accrual (reserve : ReserveData) (backstop_take_rate : Nat)
    (accrual new_ir_mod : Int) (current_time : Nat) : R ReserveData := do
  let old_d_rate := reserve.d_rate
  let new_d_rate ← ckMul old_d_rate accrual >>= fun x => ckDiv x SCALAR_12
  let r1 : ReserveData := { reserve with d_rate := new_d_rate }
  let btr : Int := backstop_take_rate
  let r2 ← Interest.take_backstop_credit r1 old_d_rate btr
  let r3 ← Interest.grow_b_rate r2 btr accrual
  return { r3 with ir_mod := new_ir_mod, last_time := current_time }

/-- Embeds `Interest::accrue_interest` at the granularity of one reserve entry.
The source loads the pool storage, mutates only `reserve_data[asset]`
(every early return either stores nothing or stores the reserve with only
`last_time` advanced) and stores it back; this function returns that
entry's resulting value, with the asset's interest-rate parameters and the
pool's `backstop_take_rate` passed explicitly. -/
def Interest.accrue_interest (backstop_take_rate : Nat) (params : InterestRateParams)
    (reserve : ReserveData) (current_time : Nat) : R ReserveData := do
  if current_time ≤ reserve.last_time then return reserve
  if reserve.b_supply = 0 then return { reserve with last_time := current_time }
  let utilization ← Interest.calculate_utilization_internal reserve
  if utilization = 0 then return { reserve with last_time := current_time }
  let am ← Interest.calc_accrual params utilization reserve.ir_mod reserve.last_time current_time
  Interest.apply_accrual reserve backstop_take_rate am.1 am.2 current_time

/-- Embeds `rounding::to_b_token_down` (`common/types.rs`): underlying to bTokens,
rounding down. -/
def rounding.to_b_token_down (amount b_rate : Int) : R Int :=
  ckMul amount SCALAR_12 >>= fun x => ckDiv x b_rate

/-- Embeds `rounding::to_b_token_up` (`common/types.rs`): underlying to bTokens,
rounding up. -/
def rounding.to_b_token_up (amount b_rate : Int) : R Int := do
  let x ← ckMul amount SCALAR_12
  let y ← ckAdd x b_rate
  let numerator ← ckSub y 1
  ckDiv numerator b_rate

/-- Embeds `rounding::to_underlying_from_b_token` (`common/types.rs`): bTokens to
underlying, rounding down. -/
def rounding.to_underlying_from_b_token (b_tokens b_rate : Int) : R Int :=
  ckMul b_tokens b_rate >>= fun x => ckDiv x SCALAR_12

/-- External oracle environment: the SEP-40 `lastprice` lookups of the RWA
oracle (keyed by the RWA token address) and of the Reflector oracle (keyed
by the crypto asset symbol), plus each oracle's `decimals()`. -/
structure OracleEnv where
  rwa_price : Nat → Option PriceData
  rwa_decimals : Nat
  crypto_price : Nat → Option PriceData
  crypto_decimals : Nat

/-- Embeds `Oracles::get_rwa_price` (`operations/oracles.rs`): fetch and validate
the RWA token price (positive, at most 24 hours old). -/
def Oracles.get_rwa_price (oenv : OracleEnv) (ledger : Ledger) (rwa_token : Nat) :
    R PriceData := do
  let oracle_price_data ← ofOpt (oenv.rwa_price rwa_token) .OraclePriceFetchFailed
  if oracle_price_data.price ≤ 0 then return (← .error .InvalidOraclePrice)
  if oracle_price_data.timestamp + 24 * 60 * 60 < ledger.timestamp then
    return (← .error .InvalidOraclePrice)
  return { price := oracle_price_data.price, timestamp := oracle_price_data.timestamp }

/-- Embeds `Oracles::get_crypto_price` (`operations/oracles.rs`): fetch and
validate a crypto asset price from the Reflector oracle. -/
def Oracles.get_crypto_price (oenv : OracleEnv) (ledger : Ledger) (asset : Nat) :
    R PriceData := do
  let oracle_price_data ← ofOpt (oenv.crypto_price asset) .OraclePriceFetchFailed
  if oracle_price_data.price ≤ 0 then return (← .error .InvalidOraclePrice)
  if oracle_price_data.timestamp + 24 * 60 * 60 < ledger.timestamp then
    return (← .error .InvalidOraclePrice)
  return { price := oracle_price_data.price, timestamp := oracle_price_data.timestamp }

/-- Embeds `Oracles::get_rwa_price_with_decimals`. -/
def Oracles.get_rwa_price_with_decimals (oenv : OracleEnv) (ledger : Ledger)
    (rwa_token : Nat) : R (Int × Nat) := do
  let price_data ← Oracles.get_rwa_price oenv ledger rwa_token
  return (price_data.price, oenv.rwa_decimals)

/-- Embeds `Oracles::get_crypto_price_with_decimals`. -/
def Oracles.get_crypto_price_with_decimals (oenv : OracleEnv) (ledger : Ledger)
    (asset : Nat) : R (Int × Nat) := do
  let price_data ← Oracles.get_crypto_price oenv ledger asset
  return (price_data.price, oenv.crypto_decimals)

/-- Embeds `Oracles::calculate_usd_value`: `amount * price / 10^price_decimals`
(the division is an unchecked `i128` division by a power of ten). -/
def Oracles.calculate_usd_value (amount price : Int) (asset_decimals price_decimals : Nat) :
    R Int := do
  let _ := asset_decimals
  let value ← ckMul amount price
  return value.tdiv ((10 : Int) ^ price_decimals)

/-- The instance-storage document (`common/storage.rs`, `PoolStorage`),
restricted to the fields the modelled operations touch.  Keys are `Nat`:
asset symbols index `pool_balances`, `reserve_data`,
`interest_rate_params` and `token_contracts`; addresses index
`d_token_balances`, `collateral` and `collateral_factors`. -/
structure PoolStorage where
  pool_balances : List (Nat × Int)
  reserve_data : List (Nat × ReserveData)
  d_token_balances : List (Nat × List (Nat × Int))
  collateral : List (Nat × List (Nat × Int))
  interest_rate_params : List (Nat × InterestRateParams)
  auction_data : List (Nat × AuctionData)
  backstop_total : Int
  backstop_take_rate : Nat
  backstop_token : Option Nat
  collateral_factors : List (Nat × Nat)
  token_contracts : List (Nat × Nat)
  deriving DecidableEq, Repr

/-- The persisted chain state: the instance-storage `PoolStorage` document
plus the persistent per-borrower CDP entries. -/
structure Chain where
  stored : PoolStorage
  cdps : List (Nat × CDP)
  deriving DecidableEq, Repr

/-- Embeds `Storage::get`: load the whole instance document. -/
def Storage.get (c : Chain) : PoolStorage := c.stored

/-- Embeds `Storage::set`: store the whole instance document. -/
def Storage.set (c : Chain) (s : PoolStorage) : Chain := { c with stored := s }

/-- Embeds `Storage::get_cdp`: persistent per-borrower storage. -/
def Storage.get_cdp (c : Chain) (borrower : Nat) : Option CDP := mget c.cdps borrower

/-- Embeds `Storage::set_cdp`. -/
def Storage.set_cdp (c : Chain) (borrower : Nat) (cdp : CDP) : Chain :=
  { c with cdps := mset c.cdps borrower cdp }

/-- Embeds `Storage::get_reserve_data`: entry of the current document, defaulting
to a fresh 1:1 reserve stamped with the ledger timestamp. -/
def Storage.get_reserve_data (c : Chain) (ledger : Ledger) (asset : Nat) : ReserveData :=
  (mget c.stored.reserve_data asset).getD (ReserveData.new ledger.timestamp)

/-- Embeds `Storage::set_reserve_data`: read-modify-write of the whole document. -/
def Storage.set_reserve_data (c : Chain) (asset : Nat) (data : ReserveData) : Chain :=
  Storage.set c { Storage.get c with reserve_data := mset (Storage.get c).reserve_data asset data }

/-- Embeds `Storage::get_d_token_rate`. -/
def Storage.get_d_token_rate (c : Chain) (ledger : Ledger) (asset : Nat) : Int :=
  (Storage.get_reserve_data c ledger asset).d_rate

/-- Embeds `Storage::get_d_token_balance`. -/
def Storage.get_d_token_balance (c : Chain) (borrower asset : Nat) : Int :=
  (mget ((mget c.stored.d_token_balances borrower).getD []) asset).getD 0

/-- Embeds `Storage::set_d_token_balance`: read-modify-write of the whole document. -/
def Storage.set_d_token_balance (c : Chain) (borrower asset : Nat) (amount : Int) : Chain :=
  let s := Storage.get c
  let borrower_balances := (mget s.d_token_balances borrower).getD []
  let updated := mset s.d_token_balances borrower (mset borrower_balances asset amount)
  Storage.set c { s with d_token_balances := updated }

/-- Embeds `Storage::get_collateral`. -/
def Storage.get_collateral (c : Chain) (borrower rwa_token : Nat) : Int :=
  (mget ((mget c.stored.collateral borrower).getD []) rwa_token).getD 0

/-- Embeds `Storage::set_collateral`: read-modify-write of the whole document. -/
def Storage.set_collateral (c : Chain) (borrower rwa_token : Nat) (amount : Int) : Chain :=
  let s := Storage.get c
  let borrower_collateral := (mget s.collateral borrower).getD []
  Storage.set c
    { s with collateral := mset s.collateral borrower (mset borrower_collateral rwa_token amount) }

/-- Embeds `Storage::get_pool_balance`. -/
def Storage.get_pool_balance (c : Chain) (asset : Nat) : Int :=
  (mget c.stored.pool_balances asset).getD 0

/-- Embeds `Storage::set_pool_balance`: read-modify-write of the whole document. -/
def Storage.set_pool_balance (c : Chain) (asset : Nat) (amount : Int) : Chain :=
  let s := Storage.get c
  Storage.set c { s with pool_balances := mset s.pool_balances asset amount }

/-- Embeds `Storage::get_token_contract`. -/
def Storage.get_token_contract (c : Chain) (asset : Nat) : Option Nat :=
  mget c.stored.token_contracts asset

/-- Embeds `Admin::get_collateral_factor` (`admin/mod.rs`): stored factor or the
75% default. -/
def Admin.get_collateral_factor (c : Chain) (rwa_token : Nat) : Nat :=
  (mget c.stored.collateral_factors rwa_token).getD 7500000

/-- Modelled from the spec: `Collateral::get_all_collateral`
(`operations/collateral.rs` is not part of the provided sources; its
callers and `Storage::{get,set}_collateral` in `common/storage.rs` show it
returns the borrower's token-to-amount collateral map from the instance
document, empty when absent, which is also how §3 and §4.3 of the spec
describe the per-borrower collateral). -/
def Collateral.get_all_collateral (c : Chain) (borrower : Nat) : List (Nat × Int) :=
  (mget c.stored.collateral borrower).getD []

/-- The pool contract's own address (`env.current_contract_address()`),
used as the `user` of protocol-side auctions. -/
def CONTRACT_ADDRESS : Nat := 0

/-- Embeds `Liquidations::calculate_auction_modifiers` (`operations/liquidations.rs`):
lot modifier 0 to 1 over `AUCTION_DURATION_BLOCKS`, bid modifier held at 1
until the duration and then decaying to 0 over a second window
(12-decimal fixed point). -/
def Liquidations.calculate_auction_modifiers (blocks_elapsed : Nat) : Int × Int :=
  let duration := AUCTION_DURATION_BLOCKS
  let lot_modifier : Int :=
    if blocks_elapsed ≤ duration then ((blocks_elapsed : Int) * SCALAR_12).tdiv (duration : Int)
    else SCALAR_12
  let bid_modifier : Int :=
    if blocks_elapsed ≤ duration then SCALAR_12
    else
      let decrease := (((blocks_elapsed - duration : Nat) : Int) * SCALAR_12).tdiv (duration : Int)
      max (SCALAR_12 - decrease) 0
  (lot_modifier, bid_modifier)

/-- The collateral-valuation loop of `Liquidations::calculate_health_factor`:
for each collateral entry with nonzero balance, add
`usd_value * collateral_factor / SCALAR_7` to the running total. -/
def Liquidations.collateral_value_fold (oenv : OracleEnv) (ledger : Ledger) (c : Chain) :
    List (Nat × Int) → Int → R Int
  | [], total => .ok total
  | (rwa_token, collateral_amount) :: rest, total => do
      if collateral_amount = 0 then
        Liquidations.collateral_value_fold oenv ledger c rest total
      else do
        let pd ← Oracles.get_rwa_price_with_decimals oenv ledger rwa_token
        let collateral_value ← Oracles.calculate_usd_value collateral_amount pd.1 pd.2 7
        let collateral_factor := Admin.get_collateral_factor c rwa_token
        let factored_value ← ckMul collateral_value (collateral_factor : Int) >>= fun x =>
          ckDiv x SCALAR_7
        let total2 ← ckAdd total factored_value
        Liquidations.collateral_value_fold oenv ledger c rest total2

/-- Embeds `Liquidations::calculate_health_factor` (`operations/liquidations.rs`):
risk-adjusted collateral value over debt value, 7 decimals, returned as a
`u32` (saturated at `u32::MAX`, which is also returned when there is no
debt). -/
def Liquidations.calculate_health_factor (oenv : OracleEnv) (ledger : Ledger) (c : Chain)
    (borrower : Nat) : R Nat := do
  let cdp ← ofOpt (Storage.get_cdp c borrower) .CDPNotInsolvent
  let all_collateral := Collateral.get_all_collateral c borrower
  let total_collateral_value ← Liquidations.collateral_value_fold oenv ledger c all_collateral 0
  let total_debt_value ←
    match cdp.debt_asset with
    | some debt_asset =>
      if 0 < cdp.d_tokens then do
        let d_token_rate := Storage.get_d_token_rate c ledger debt_asset
        let debt_amount ← ckMul cdp.d_tokens d_token_rate >>= fun x => ckDiv x SCALAR_12
        let pd ← Oracles.get_crypto_price_with_decimals oenv ledger debt_asset
        Oracles.calculate_usd_value debt_amount pd.1 pd.2 7
      else pure 0
    | none => pure 0
  if total_debt_value = 0 then return asU32 U32_MAX
  let health_factor ← ckMul total_collateral_value SCALAR_7 >>= fun x =>
    ckDiv x total_debt_value
  return asU32 (min health_factor U32_MAX)

/-- Embeds `Liquidations::fill_auction` (`operations/liquidations.rs`): fill a
user-liquidation auction.  The source takes a `storage` snapshot up front,
routes the CDP update through persistent storage and the collateral,
dToken-balance and pool-balance updates through whole-document
read-modify-writes, re-checks the post-liquidation health factor, and
finally writes the up-front snapshot back with only the auction entry
removed. -/
def Liquidations.fill_auction (oenv : OracleEnv) (ledger : Ledger) (c0 : Chain)
    (auction_id : Nat) (liquidator : Nat) : R Chain := do
  let _ := liquidator
  let storage := Storage.get c0
  let auction ← ofOpt (mget storage.auction_data auction_id) .AuctionNotFound
  if auction.auction_type ≠ AuctionType.UserLiquidation then
    return (← .error .AuctionNotActive)
  let blocks_elapsed := ledger.sequence - auction.block
  let lm := Liquidations.calculate_auction_modifiers blocks_elapsed
  let rwa_token ← firstKey auction.lot .AuctionNotActive
  let collateral_amount := (mget auction.lot rwa_token).getD 0
  let debt_token_address ← firstKey auction.bid .AuctionNotActive
  let debt_amount := (mget auction.bid debt_token_address).getD 0
  let collateral_received ← ckMul collateral_amount lm.1 >>= fun x => ckDiv x SCALAR_12
  let debt_to_pay ← ckMul debt_amount lm.2 >>= fun x => ckDiv x SCALAR_12
  let cdp ← ofOpt (Storage.get_cdp c0 auction.user) .CDPNotInsolvent
  let debt_asset ← ofOpt cdp.debt_asset .DebtAssetNotSet
  let d_token_rate := Storage.get_d_token_rate c0 ledger debt_asset
  let d_tokens_to_burn ← ckMul debt_to_pay SCALAR_12 >>= fun x => ckDiv x d_token_rate
  let cdpA : CDP := { cdp with d_tokens := cdp.d_tokens - d_tokens_to_burn }
  let cdpB : CDP := if cdpA.d_tokens = 0 then { cdpA with debt_asset := none } else cdpA
  let cdpC : CDP := { cdpB with last_update := ledger.timestamp }
  let c1 := Storage.set_cdp c0 auction.user cdpC
  let current_collateral := Storage.get_collateral c1 auction.user rwa_token
  let c2 := Storage.set_collateral c1 auction.user rwa_token
    (current_collateral - collateral_received)
  let current_balance := Storage.get_d_token_balance c2 auction.user debt_asset
  let c3 := Storage.set_d_token_balance c2 auction.user debt_asset
    (current_balance - d_tokens_to_burn)
  let pool_balance := Storage.get_pool_balance c3 debt_asset
  let c4 := Storage.set_pool_balance c3 debt_asset (pool_balance + debt_to_pay)
  let post_liq_health_factor ← Liquidations.calculate_health_factor oenv ledger c4 auction.user
  if MAX_HEALTH_FACTOR < (post_liq_health_factor : Int) then
    return (← .error .HealthFactorTooHigh)
  let storageF := { storage with auction_data := mdel storage.auction_data auction_id }
  return Storage.set c4 storageF

/-- Embeds `BadDebt::calculate_modifiers` (`operations/bad_debt.rs`): linear lot
0 to 1 and bid 1 to 0 over a 400-block duration. -/
def BadDebt.calculate_modifiers (blocks_elapsed : Nat) : Int × Int :=
  if 400 ≤ blocks_elapsed then (SCALAR_12, 0)
  else
    let progress := ((blocks_elapsed : Int) * SCALAR_12).tdiv 400
    (progress, SCALAR_12 - progress)

/-- Embeds `BadDebt::fill_bad_debt_auction` (`operations/bad_debt.rs`): the bidder
covers `amount` of debt (scaled by the bid modifier) and receives backstop
tokens (scaled by the lot modifier); the CDP's `d_tokens` shrink by
`saturating_sub`, the auction entry is removed only when `d_tokens`
reaches zero, and the final write stores the up-front snapshot (with the
local `backstop_total` and auction updates applied to it). -/
def BadDebt.fill_bad_debt_auction (ledger : Ledger) (c0 : Chain) (auction_id : Nat)
    (bidder : Nat) (amount : Int) : R (Chain × Int) := do
  let _ := bidder
  let storage := Storage.get c0
  let auction ← ofOpt (mget storage.auction_data auction_id) .AuctionNotFound
  if auction.auction_type ≠ AuctionType.BadDebt then
    return (← .error .AuctionNotActive)
  let blocks_elapsed := ledger.sequence - auction.block
  let lm := BadDebt.calculate_modifiers blocks_elapsed
  let backstop_tokens ← ckMul amount lm.1 >>= fun x => ckDiv x SCALAR_12
  let debt_to_cover ← ckMul amount lm.2 >>= fun x => ckDiv x SCALAR_12
  let cdp ← ofOpt (Storage.get_cdp c0 auction.user) .CDPNotInsolvent
  let step ←
    match cdp.debt_asset with
    | some asset => do
        let d_token_rate := Storage.get_d_token_rate c0 ledger asset
        let d_tokens_to_burn ← ckMul debt_to_cover SCALAR_12 >>= fun x => ckDiv x d_token_rate
        let cdpA : CDP := { cdp with d_tokens := satSub cdp.d_tokens d_tokens_to_burn }
        let cdpB : CDP := if cdpA.d_tokens = 0 then { cdpA with debt_asset := none } else cdpA
        let cdpC : CDP := { cdpB with last_update := ledger.timestamp }
        let c1 := Storage.set_cdp c0 auction.user cdpC
        let storageA :=
          if 0 < backstop_tokens then
            { storage with backstop_total := satSub storage.backstop_total backstop_tokens }
          else storage
        let pool_balance := Storage.get_pool_balance c1 asset
        let c2 := Storage.set_pool_balance c1 asset (pool_balance + debt_to_cover)
        pure (c2, storageA, cdpC)
    | none => pure (c0, storage, cdp)
  let storageB :=
    if step.2.2.d_tokens = 0 then
      { step.2.1 with auction_data := mdel step.2.1.auction_data auction_id }
    else step.2.1
  return (Storage.set step.1 storageB, backstop_tokens)

/-- Embeds `InterestAuction::calculate_modifiers` (`operations/interest_auction.rs`):
lot modifier held at 1, bid modifier 1 to 0 over a 200-block duration. -/
def InterestAuction.calculate_modifiers (blocks_elapsed : Nat) : Int × Int :=
  if 200 ≤ blocks_elapsed then (SCALAR_12, 0)
  else
    let progress := ((blocks_elapsed : Int) * SCALAR_12).tdiv 200
    (SCALAR_12, SCALAR_12 - progress)

/-- Embeds `InterestAuction::generate_auction_id`: wrapping `u32` sum of the
ledger sequence, the low 32 bits of the timestamp and the offset 1000. -/
def InterestAuction.generate_auction_id (ledger : Ledger) : Nat :=
  (ledger.sequence + ledger.timestamp % 2 ^ 32 + 1000) % 2 ^ 32

/-- Embeds `InterestAuction::create_interest_auction` (`operations/interest_auction.rs`):
snapshot the reserve's `backstop_credit` into a new Interest auction's lot
(requiring at least 100 units with 7 decimals); only the auction entry of
the document is written. -/
def InterestAuction.create_interest_auction (ledger : Ledger) (c0 : Chain) (asset : Nat) :
    R (Chain × Nat) := do
  let reserve_data := Storage.get_reserve_data c0 ledger asset
  let min_auction_amount : Int := 1000000000
  if reserve_data.backstop_credit < min_auction_amount then
    return (← .error .AuctionNotActive)
  let token_address ← ofOpt (Storage.get_token_contract c0 asset) .TokenContractNotSet
  let auction_id := InterestAuction.generate_auction_id ledger
  let auction_data : AuctionData :=
    { auction_type := AuctionType.Interest
      user := CONTRACT_ADDRESS
      bid := []
      lot := mset [] token_address reserve_data.backstop_credit
      block := ledger.sequence }
  let storage := Storage.get c0
  let storage2 := { storage with auction_data := mset storage.auction_data auction_id auction_data }
  return (Storage.set c0 storage2, auction_id)

/-- Embeds `InterestAuction::fill_interest_auction` (`operations/interest_auction.rs`):
partial fill of an Interest auction by `fill_percent`; the backstop-credit
decrement goes through `Storage::set_reserve_data` while the auction and
`backstop_total` updates are made on the up-front snapshot, which is what
the final `Storage::set` stores. -/
def InterestAuction.fill_interest_auction (ledger : Ledger) (c0 : Chain) (auction_id : Nat)
    (bidder : Nat) (asset : Nat) (fill_percent : Int) : R (Chain × Int × Int) := do
  let _ := bidder
  if fill_percent ≤ 0 ∨ SCALAR_7 < fill_percent then
    return (← .error .InvalidFillPercent)
  let storage := Storage.get c0
  let auction ← ofOpt (mget storage.auction_data auction_id) .AuctionNotFound
  if auction.auction_type ≠ AuctionType.Interest then
    return (← .error .AuctionNotActive)
  let blocks_elapsed := ledger.sequence - auction.block
  let lm := InterestAuction.calculate_modifiers blocks_elapsed
  let token_address ← ofOpt (Storage.get_token_contract c0 asset) .TokenContractNotSet
  let total_interest := (mget auction.lot token_address).getD 0
  if total_interest = 0 then return (← .error .AuctionNotActive)
  let interest_to_receive ← ckMul total_interest fill_percent >>= fun a => ckDiv a SCALAR_7
    >>= fun b => ckMul b lm.1 >>= fun d => ckDiv d SCALAR_12
  let backstop_to_pay ← ckMul interest_to_receive lm.2 >>= fun x => ckDiv x SCALAR_12
  let storageA :=
    if 0 < backstop_to_pay then
      { storage with backstop_total := storage.backstop_total + backstop_to_pay }
    else storage
  let c1 :=
    if 0 < interest_to_receive then
      let reserve_data := Storage.get_reserve_data c0 ledger asset
      let rd : ReserveData :=
        { reserve_data with
            backstop_credit := satSub reserve_data.backstop_credit interest_to_receive }
      Storage.set_reserve_data c0 asset rd
    else c0
  let remaining_interest := total_interest - interest_to_receive
  let storageB :=
    if remaining_interest ≤ 0 then
      { storageA with auction_data := mdel storageA.auction_data auction_id }
    else
      let updated_auction := { auction with lot := mset auction.lot token_address remaining_interest }
      { storageA with auction_data := mset storageA.auction_data auction_id updated_auction }
  return (Storage.set c1 storageB, interest_to_receive, backstop_to_pay)

/-- Empty pool document, base of the concrete scenarios below. -/
def emptyStorage : PoolStorage :=
  { pool_balances := []
    reserve_data := []
    d_token_balances := []
    collateral := []
    interest_rate_params := []
    auction_data := []
    backstop_total := 0
    backstop_take_rate := 0
    backstop_token := none
    collateral_factors := []
    token_contracts := [] }

/-- The default interest-rate parameters (`Interest::default_params`). -/
def Interest.default_params : InterestRateParams :=
  { target_util := 7500000
    max_util := 9500000
    r_base := 100000
    r_one := 500000
    r_two := 5000000
    r_three := 15000000
    reactivity := 200 }

/-- Oracle fixture: the RWA token at address 10 and the crypto asset with
symbol 5 are both priced at 1.0 (7 decimals) with timestamp 0. -/
def exOracle : OracleEnv :=
  { rwa_price := fun t => if t = 10 then some { price := 10000000, timestamp := 0 } else none
    rwa_decimals := 7
    crypto_price := fun s => if s = 5 then some { price := 10000000, timestamp := 0 } else none
    crypto_decimals := 7 }

/-- Ledger fixture for the liquidation-fill scenario: timestamp 0, exactly
`AUCTION_DURATION_BLOCKS` blocks after the auction's start block. -/
def exLedgerFill : Ledger := { timestamp := 0, sequence := 200 }

/-- Chain fixture for the liquidation-fill scenario: borrower 1 holds 100
units of RWA token 10 (collateral factor 1.0) and owes 100 dTokens of
asset 5 (rate 1:1); auction 7 offers 60 collateral for 50 debt. -/
def exChainLiq : Chain :=
  { stored :=
      { emptyStorage with
          pool_balances := [(5, 0)]
          reserve_data := [(5, { ReserveData.new 0 with d_supply := 100 })]
          d_token_balances := [(1, [(5, 100)])]
          collateral := [(1, [(10, 100)])]
          auction_data :=
            [(7, { auction_type := AuctionType.UserLiquidation
                   user := 1
                   bid := [(20, 50)]
                   lot := [(10, 60)]
                   block := 0 })]
          collateral_factors := [(10, 10000000)]
          token_contracts := [(5, 20)] }
    cdps := [(1, { collateral := [(10, 100)]
                   debt_asset := some 5
                   d_tokens := 100
                   created_at := 0
                   last_update := 0 })] }

/-- The chain state left by the successful liquidation fill on `exChainLiq`. -/
def exChainLiqPost : Chain :=
  (Liquidations.fill_auction exOracle exLedgerFill exChainLiq 7 2).toOption.getD exChainLiq

/-- Chain fixture for the bad-debt overshoot scenario: borrower 1 owes 10
dTokens of asset 5 with no collateral; auction 3 is a BadDebt auction. -/
def exChainBadDebt : Chain :=
  { stored :=
      { emptyStorage with
          pool_balances := [(5, 0)]
          reserve_data := [(5, { ReserveData.new 0 with d_supply := 10 })]
          auction_data :=
            [(3, { auction_type := AuctionType.BadDebt
                   user := 1
                   bid := []
                   lot := []
                   block := 0 })] }
    cdps := [(1, { collateral := []
                   debt_asset := some 5
                   d_tokens := 10
                   created_at := 0
                   last_update := 0 })] }

/-- Ledger fixture at the start block of the bad-debt auction. -/
def exLedgerBD : Ledger := { timestamp := 0, sequence := 0 }

/-- The chain state left by over-filling the bad-debt auction with
`amount = 100` against 10 dTokens of debt. -/
def exChainBadDebtPost : Chain :=
  ((BadDebt.fill_bad_debt_auction exLedgerBD exChainBadDebt 3 4 100).toOption.map Prod.fst).getD
    exChainBadDebt

/-- Chain fixture for the partial bad-debt fill: borrower 1 owes 100
dTokens; a fill of `amount = 50` covers only half. -/
def exChainBadDebtPartial : Chain :=
  { stored :=
      { emptyStorage with
          pool_balances := [(5, 0)]
          reserve_data := [(5, { ReserveData.new 0 with d_supply := 100 })]
          auction_data :=
            [(3, { auction_type := AuctionType.BadDebt
                   user := 1
                   bid := []
                   lot := []
                   block := 0 })] }
    cdps := [(1, { collateral := []
                   debt_asset := some 5
                   d_tokens := 100
                   created_at := 0
                   last_update := 0 })] }

/-- The chain state left by the partial bad-debt fill on
`exChainBadDebtPartial`. -/
def exChainBadDebtPartialPost : Chain :=
  ((BadDebt.fill_bad_debt_auction exLedgerBD exChainBadDebtPartial 3 4 50).toOption.map
    Prod.fst).getD exChainBadDebtPartial

/-- Reserve fixture of the spec's concrete accrual scenario:
1,000,000 units supplied, 800,000 borrowed, both rates 1:1. -/
def exReserveC6 : ReserveData :=
  { b_rate := SCALAR_12
    d_rate := SCALAR_12
    ir_mod := SCALAR_7
    b_supply := 1000000 * SCALAR_12
    d_supply := 800000 * SCALAR_12
    backstop_credit := 0
    last_time := 0 }

/-- Result of accruing `exReserveC6` over one year with zero backstop take. -/
def exReserveC6Post : ReserveData :=
  (Interest.accrue_interest 0 Interest.default_params exReserveC6 SECONDS_PER_YEAR).toOption.getD
    exReserveC6

/-- Reserve fixture with a negative `d_supply`, driving utilization (and
with it the piecewise rate) negative. -/
def exReserveNegD : ReserveData :=
  { b_rate := SCALAR_12
    d_rate := SCALAR_12
    ir_mod := SCALAR_7
    b_supply := SCALAR_12
    d_supply := -SCALAR_12
    backstop_credit := 0
    last_time := 0 }

/-- Result of accruing `exReserveNegD` over one year. -/
def exReserveNegDPost : ReserveData :=
  (Interest.accrue_interest 0 Interest.default_params exReserveNegD SECONDS_PER_YEAR).toOption.getD
    exReserveNegD

/-- Reserve fixture with zero `b_supply` and a stale `last_time`. -/
def exReserveZeroSupply : ReserveData :=
  { b_rate := SCALAR_12
    d_rate := SCALAR_12
    ir_mod := SCALAR_7
    b_supply := 0
    d_supply := 0
    backstop_credit := 0
    last_time := 0 }

/-- Chain fixture for the interest-auction scenario: asset 5 has 200 units
(7 decimals) of accumulated `backstop_credit` and token contract 20. -/
def exChainIA : Chain :=
  { stored :=
      { emptyStorage with
          reserve_data := [(5, { ReserveData.new 0 with backstop_credit := 2000000000 })]
          token_contracts := [(5, 20)] }
    cdps := [] }

/-- Ledger fixture at creation time of the interest auction. -/
def exLedgerIACreate : Ledger := { timestamp := 0, sequence := 0 }

/-- Ledger fixture 100 blocks into the interest auction. -/
def exLedgerIAFill : Ledger := { timestamp := 0, sequence := 100 }

/-- Chain state after creating the interest auction on `exChainIA`
(auction id `(0 + 0 + 1000) % 2^32 = 1000`). -/
def exChainIACreated : Chain :=
  ((InterestAuction.create_interest_auction exLedgerIACreate exChainIA 5).toOption.map
    Prod.fst).getD exChainIA

/-- Chain state after fully filling the interest auction 100 blocks in. -/
def exChainIAPost : Chain :=
  ((InterestAuction.fill_interest_auction exLedgerIAFill exChainIACreated 1000 9 5
    SCALAR_7).toOption.map Prod.fst).getD exChainIA

theorem bind_ok_inv {α β : Type} {e : R α} {f : α → R β} {b : β}
    (h : e >>= f = .ok b) : ∃ a, e = .ok a ∧ f a = .ok b := by
  cases e with
  | error err => exact absurd h (by simp [Bind.bind, Except.bind])
  | ok a => exact ⟨a, rfl, h⟩

theorem ofOpt_ok {α : Type} {o : Option α} {e : Error} {a : α}
    (h : ofOpt o e = .ok a) : o = some a := by
  cases o with
  | none => exact absurd h (by simp [ofOpt])
  | some x => simpa [ofOpt] using h

theorem ck_ok {v w : Int} (h : ck v = .ok w) : w = v := by
  unfold ck at h
  split at h
  · exact absurd h (by simp)
  · simpa using h.symm

theorem ckAdd_ok {a b w : Int} (h : ckAdd a b = .ok w) : w = a + b := ck_ok h

theorem ckSub_ok {a b w : Int} (h : ckSub a b = .ok w) : w = a - b := ck_ok h

theorem ckMul_ok {a b w : Int} (h : ckMul a b = .ok w) : w = a * b := ck_ok h

theorem ckDiv_ok {a b w : Int} (h : ckDiv a b = .ok w) : w = a.tdiv b := by
  unfold ckDiv at h
  split at h
  · exact absurd h (by simp)
  · simpa using h.symm

theorem pure_ok {α : Type} {a b : α} (h : (pure a : R α) = .ok b) : b = a := by
  simpa [pure, Except.pure] using h.symm

theorem mget_mdel_self {κ ν : Type} [DecidableEq κ] (m : List (κ × ν)) (k : κ) :
    mget (mdel m k) k = none := by
  induction m with
  | nil => rfl
  | cons kv rest ih =>
    obtain ⟨k', v'⟩ := kv
    by_cases hk : k' = k
    · simpa [mdel, hk] using ih
    · simp [mdel, hk, mget, ih]

theorem mget_mset_self {κ ν : Type} [DecidableEq κ] (m : List (κ × ν)) (k : κ) (v : ν) :
    mget (mset m k v) k = some v := by
  induction m with
  | nil => simp [mset, mget]
  | cons kv rest ih =>
    obtain ⟨k', v'⟩ := kv
    by_cases hk : k' = k
    · simp [mset, hk, mget]
    · simp [mset, hk, mget, ih]

theorem tdiv_le_tdiv {a b c : Int} (h0 : 0 ≤ a) (hab : a ≤ b) (hc : 0 < c) :
    a.tdiv c ≤ b.tdiv c := by
  rw [Int.tdiv_eq_ediv h0 (le_of_lt hc), Int.tdiv_eq_ediv (le_trans h0 hab) (le_of_lt hc)]
  exact Int.ediv_le_ediv hc hab

set_option maxRecDepth 10000

/-- C1: the claim says that after any successful `fill_auction` on a
UserLiquidation auction the borrower's post-liquidation health factor is at
most `MAX_HEALTH_FACTOR`.  The code does check the health factor, but it
checks it on the intermediate state and then stores the storage snapshot
taken at entry (with only the auction removed), reverting its own
collateral, dToken-balance and pool-balance updates: on the concrete
scenario the fill succeeds, yet the health factor recomputed on the
resulting chain state is 2.0, above the 1.15 cap. -/
theorem c1_fill_auction_health_cap_failing_input :
    Liquidations.fill_auction exOracle exLedgerFill exChainLiq 7 2 = .ok exChainLiqPost ∧
    Liquidations.calculate_health_factor exOracle exLedgerFill exChainLiqPost 1 = .ok 20000000 ∧
    MAX_HEALTH_FACTOR < (20000000 : Int) ∧
    Storage.get_collateral exChainLiqPost 1 10 = 100 := by
  exact ⟨by decide, by decide, by decide, by decide⟩

/-- C5: the claim says `d_tokens` never goes negative and `debt_asset` is
cleared exactly at zero.  `BadDebt::fill_bad_debt_auction` takes a
caller-chosen `amount` and shrinks the debt with `i128::saturating_sub`,
which saturates at `i128::MIN`, not at zero: over-filling a 10-dToken debt
with `amount = 100` succeeds and leaves the stored CDP with
`d_tokens = -90` and `debt_asset` still set. -/
theorem c5_bad_debt_overfill_negative_d_tokens :
    BadDebt.fill_bad_debt_auction exLedgerBD exChainBadDebt 3 4 100 =
      .ok (exChainBadDebtPost, 0) ∧
    Storage.get_cdp exChainBadDebtPost 1 =
      some { collateral := []
             debt_asset := some 5
             d_tokens := -90
             created_at := 0
             last_update := 0 } ∧
    (-90 : Int) < 0 := by
  exact ⟨by decide, by decide, by decide⟩

/-- C6: on the spec's concrete scenario (1,000,000 supplied, 800,000
borrowed, 1:1 rates, default Blend-style parameters, one year of accrual)
the utilization is exactly 8_000_000, the accrual factor is exactly
`SCALAR_12 + 185_000_000_000`, and the accrued `d_rate` is exactly
1_185_000_000_000. -/
theorem c6_concrete_accrual_values :
    Interest.calculate_utilization_internal exReserveC6 = .ok 8000000 ∧
    Interest.calc_accrual Interest.default_params 8000000 SCALAR_7 0 SECONDS_PER_YEAR =
      .ok (1185000000000, 100000000) ∧
    (1185000000000 : Int) = SCALAR_12 + 185000000000 ∧
    Interest.accrue_interest 0 Interest.default_params exReserveC6 SECONDS_PER_YEAR =
      .ok exReserveC6Post ∧
    exReserveC6Post.d_rate = 1185000000000 := by
  exact ⟨by decide, by decide, by decide, by decide, by decide⟩

/-- C10: the claim says `create_interest_auction` leaves the reserve (and
its `backstop_credit`) unchanged and that `backstop_credit` is decremented
later by `fill_interest_auction` in proportion to the interest transferred.
The creation half holds, but the fill writes the storage snapshot taken
before `Storage::set_reserve_data`, clobbering the decrement: on the
concrete scenario the fill transfers 2_000_000_000 of interest out and
removes the auction, yet the stored `backstop_credit` is still
2_000_000_000 afterwards. -/
theorem c10_interest_auction_backstop_credit_failing_input :
    InterestAuction.create_interest_auction exLedgerIACreate exChainIA 5 =
      .ok (exChainIACreated, 1000) ∧
    mget exChainIACreated.stored.reserve_data 5 =
      some { ReserveData.new 0 with backstop_credit := 2000000000 } ∧
    InterestAuction.fill_interest_auction exLedgerIAFill exChainIACreated 1000 9 5 SCALAR_7 =
      .ok (exChainIAPost, 2000000000, 1000000000) ∧
    mget exChainIAPost.stored.reserve_data 5 =
      some { ReserveData.new 0 with backstop_credit := 2000000000 } ∧
    mget exChainIAPost.stored.auction_data 1000 = none := by
  exact ⟨by decide, by decide, by decide, by decide, by decide⟩

/-- C2 counterexample: with `b_supply = 0` and `now = 5 > last_time = 0`,
`accrue_interest` is not a no-op: it stores the reserve with `last_time`
advanced to 5, so the stored `ReserveData` differs from the input. -/
theorem c2_zero_supply_updates_last_time :
    Interest.accrue_interest 0 Interest.default_params exReserveZeroSupply 5 =
      .ok { exReserveZeroSupply with last_time := 5 } ∧
    { exReserveZeroSupply with last_time := 5 } ≠ exReserveZeroSupply := by
  exact ⟨by decide, by decide⟩

/-- C3 counterexample: the claim quantifies over every reserve with
`d_rate ≥ 0`, `b_rate ≥ 0`, `ir_mod ≥ 0` and a backstop take rate in
range, but omits `d_supply ≥ 0`.  With `d_supply = -SCALAR_12` the
utilization is `-SCALAR_7`, the segment-1 rate is negative, and a year of
accrual shrinks both rates from `SCALAR_12` to 943_333_400_000. -/
theorem c3_negative_d_supply_decreases_rates :
    0 ≤ exReserveNegD.d_rate ∧ 0 ≤ exReserveNegD.b_rate ∧ 0 ≤ exReserveNegD.ir_mod ∧
    Interest.accrue_interest 0 Interest.default_params exReserveNegD SECONDS_PER_YEAR =
      .ok exReserveNegDPost ∧
    exReserveNegDPost.d_rate < exReserveNegD.d_rate ∧
    exReserveNegDPost.b_rate < exReserveNegD.b_rate := by
  exact ⟨by decide, by decide, by decide, by decide, by decide, by decide⟩

/-- C4 counterexample: a successful `fill_bad_debt_auction` that covers
only half of the borrower's debt leaves the BadDebt auction entry in
`auction_data`: bad-debt fills are not all-or-nothing. -/
theorem c4_partial_bad_debt_fill_keeps_auction :
    BadDebt.fill_bad_debt_auction exLedgerBD exChainBadDebtPartial 3 4 50 =
      .ok (exChainBadDebtPartialPost, 0) ∧
    mget exChainBadDebtPartialPost.stored.auction_data 3 =
      some { auction_type := AuctionType.BadDebt, user := 1, bid := [], lot := [], block := 0 } ∧
    Storage.get_cdp exChainBadDebtPartialPost 1 =
      some { collateral := []
             debt_asset := some 5
             d_tokens := 50
             created_at := 0
             last_update := 0 } := by
  exact ⟨by decide, by decide, by decide⟩

theorem clampI_mem {x lo hi : Int} (hlh : lo ≤ hi) :
    lo ≤ clampI x lo hi ∧ clampI x lo hi ≤ hi := by
  unfold clampI
  split
  · omega
  · split <;> omega

theorem le_mul_tdiv_scalar12 {x acc : Int} (hx : 0 ≤ x) (hacc : SCALAR_12 ≤ acc) :
    x ≤ (x * acc).tdiv SCALAR_12 := by
  have h1 : x * SCALAR_12 ≤ x * acc := mul_le_mul_of_nonneg_left hacc hx
  have h2 := tdiv_le_tdiv (mul_nonneg hx (by decide)) h1 (by decide : (0:Int) < SCALAR_12)
  rwa [Int.mul_tdiv_cancel x (by decide : (SCALAR_12 : Int) ≠ 0)] at h2

theorem util_ok_nonneg {reserve : ReserveData} {u : Int}
    (hds : 0 ≤ reserve.d_supply) (hdr : 0 ≤ reserve.d_rate)
    (h : Interest.calculate_utilization_internal reserve = .ok u) : 0 ≤ u := by
  unfold Interest.calculate_utilization_internal at h
  dsimp only at h
  split at h
  · replace h := pure_ok h; subst h; exact le_refl 0
  obtain ⟨u0, -, h⟩ := bind_ok_inv h
  obtain ⟨ts, hts, h⟩ := bind_ok_inv h
  split at h
  · replace h := pure_ok h; subst h; exact le_refl 0
  obtain ⟨u1, -, h⟩ := bind_ok_inv h
  obtain ⟨tl, htl, h⟩ := bind_ok_inv h
  have htl0 : 0 ≤ tl := by
    obtain ⟨p, hp, htl⟩ := bind_ok_inv htl
    replace hp := ckMul_ok hp
    subst hp
    replace htl := ckDiv_ok htl
    subst htl
    exact Int.tdiv_nonneg (mul_nonneg hds hdr) (by decide)
  split at h
  · replace h := pure_ok h; subst h; decide
  rename_i hlt
  obtain ⟨u2, -, h⟩ := bind_ok_inv h
  obtain ⟨ut, hut, h⟩ := bind_ok_inv h
  replace h := pure_ok h
  subst h
  have hts0 : 0 < ts := by omega
  have hut0 : 0 ≤ ut := by
    obtain ⟨p, hp, hut⟩ := bind_ok_inv hut
    replace hp := ckMul_ok hp
    subst hp
    replace hut := ckDiv_ok hut
    subst hut
    exact Int.tdiv_nonneg (mul_nonneg htl0 (by decide)) (le_of_lt hts0)
  exact le_min hut0 (by decide)

theorem segment_rate_ok_nonneg {params : InterestRateParams} {cur_util ir_mod rate : Int}
    (hu : 0 ≤ cur_util) (him : 0 ≤ ir_mod)
    (h : Interest.segment_rate params cur_util ir_mod = .ok rate) : 0 ≤ rate := by
  unfold Interest.segment_rate at h
  dsimp only at h
  have h1 := Int.natCast_nonneg params.r_one
  have h2 := Int.natCast_nonneg params.r_base
  have h3 := Int.natCast_nonneg params.r_two
  have h4 := Int.natCast_nonneg params.r_three
  split at h
  · split at h
    · rename_i htpos
      obtain ⟨a, ha, h⟩ := bind_ok_inv h
      replace ha := ckMul_ok ha
      subst ha
      obtain ⟨b, hb, h⟩ := bind_ok_inv h
      replace hb := ckDiv_ok hb
      subst hb
      obtain ⟨c, hc, h⟩ := bind_ok_inv h
      replace hc := ckAdd_ok hc
      subst hc
      obtain ⟨z, hz, h⟩ := bind_ok_inv h
      replace hz := ckMul_ok hz
      subst hz
      replace h := ckDiv_ok h
      subst h
      have hq := Int.tdiv_nonneg (mul_nonneg hu (Int.natCast_nonneg params.r_one))
        (le_of_lt htpos)
      exact Int.tdiv_nonneg (mul_nonneg (by omega) him) (by decide)
    · obtain ⟨a, ha, h⟩ := bind_ok_inv h
      replace ha := pure_ok ha
      subst ha
      obtain ⟨z, hz, h⟩ := bind_ok_inv h
      replace hz := ckMul_ok hz
      subst hz
      replace h := ckDiv_ok h
      subst h
      exact Int.tdiv_nonneg (mul_nonneg h2 him) (by decide)
  · split at h
    · rename_i hgt _
      obtain ⟨ud, hud, h⟩ := bind_ok_inv h
      replace hud := ckSub_ok hud
      subst hud
      obtain ⟨rg, hrg, h⟩ := bind_ok_inv h
      replace hrg := ckSub_ok hrg
      subst hrg
      split at h
      · rename_i hrpos
        obtain ⟨a, ha, h⟩ := bind_ok_inv h
        replace ha := ckMul_ok ha
        subst ha
        obtain ⟨b, hb, h⟩ := bind_ok_inv h
        replace hb := ckDiv_ok hb
        subst hb
        obtain ⟨c, hc, h⟩ := bind_ok_inv h
        replace hc := ckAdd_ok hc
        subst hc
        obtain ⟨d, hd2, h⟩ := bind_ok_inv h
        replace hd2 := ckAdd_ok hd2
        subst hd2
        obtain ⟨z, hz, h⟩ := bind_ok_inv h
        replace hz := ckMul_ok hz
        subst hz
        replace h := ckDiv_ok h
        subst h
        have hq := Int.tdiv_nonneg
          (mul_nonneg (by omega : (0:Int) ≤ cur_util - (params.target_util : Int))
            (Int.natCast_nonneg params.r_two)) (le_of_lt hrpos)
        exact Int.tdiv_nonneg (mul_nonneg (by omega) him) (by decide)
      · obtain ⟨a, ha, h⟩ := bind_ok_inv h
        replace ha := ckAdd_ok ha
        subst ha
        obtain ⟨z, hz, h⟩ := bind_ok_inv h
        replace hz := ckMul_ok hz
        subst hz
        replace h := ckDiv_ok h
        subst h
        exact Int.tdiv_nonneg (mul_nonneg (by omega) him) (by decide)
    · rename_i hgt1 hgt2
      obtain ⟨ud, hud, h⟩ := bind_ok_inv h
      replace hud := ckSub_ok hud
      subst hud
      obtain ⟨rg, hrg, h⟩ := bind_ok_inv h
      replace hrg := ckSub_ok hrg
      subst hrg
      split at h
      · rename_i hrpos
        obtain ⟨a, ha, h⟩ := bind_ok_inv h
        replace ha := ckMul_ok ha
        subst ha
        obtain ⟨b, hb, h⟩ := bind_ok_inv h
        replace hb := ckDiv_ok hb
        subst hb
        obtain ⟨c, hc, h⟩ := bind_ok_inv h
        replace hc := ckAdd_ok hc
        subst hc
        obtain ⟨d, hd2, h⟩ := bind_ok_inv h
        replace hd2 := ckAdd_ok hd2
        subst hd2
        replace h := ckAdd_ok h
        subst h
        have hq := Int.tdiv_nonneg
          (mul_nonneg (by omega : (0:Int) ≤ cur_util - (params.max_util : Int))
            (Int.natCast_nonneg params.r_three)) (le_of_lt hrpos)
        omega
      · obtain ⟨c, hc, h⟩ := bind_ok_inv h
        replace hc := ckAdd_ok hc
        subst hc
        obtain ⟨d, hd2, h⟩ := bind_ok_inv h
        replace hd2 := ckAdd_ok hd2
        subst hd2
        replace h := ckAdd_ok h
        subst h
        omega

theorem calc_accrual_ok_irmod_bounds {params : InterestRateParams} {cur_util ir_mod : Int}
    {last_time current_time : Nat} {am : Int × Int}
    (hlt : last_time < current_time)
    (h : Interest.calc_accrual params cur_util ir_mod last_time current_time = .ok am) :
    SCALAR_7 / 10 ≤ am.2 ∧ am.2 ≤ SCALAR_7 * 10 := by
  unfold Interest.calc_accrual at h
  dsimp only at h
  split at h
  · rename_i h0
    exact absurd h0 (by omega)
  obtain ⟨u0, -, h⟩ := bind_ok_inv h
  obtain ⟨ir, -, h⟩ := bind_ok_inv h
  obtain ⟨twn, -, h⟩ := bind_ok_inv h
  obtain ⟨twd, -, h⟩ := bind_ok_inv h
  obtain ⟨ai, -, h⟩ := bind_ok_inv h
  obtain ⟨acc, -, h⟩ := bind_ok_inv h
  obtain ⟨ud, -, h⟩ := bind_ok_inv h
  obtain ⟨ch, -, h⟩ := bind_ok_inv h
  obtain ⟨raw, -, h⟩ := bind_ok_inv h
  replace h := pure_ok h
  subst h
  exact clampI_mem (by decide)

theorem calc_accrual_ok_accrual_ge {params : InterestRateParams} {cur_util ir_mod : Int}
    {last_time current_time : Nat} {am : Int × Int}
    (hu : 0 ≤ cur_util) (him : 0 ≤ ir_mod)
    (h : Interest.calc_accrual params cur_util ir_mod last_time current_time = .ok am) :
    SCALAR_12 ≤ am.1 := by
  unfold Interest.calc_accrual at h
  dsimp only at h
  split at h
  · replace h := pure_ok h
    subst h
    exact le_refl _
  obtain ⟨u0, -, h⟩ := bind_ok_inv h
  obtain ⟨ir, hir, h⟩ := bind_ok_inv h
  have hirn := segment_rate_ok_nonneg hu him hir
  obtain ⟨twn, htwn, h⟩ := bind_ok_inv h
  have htwn0 : 0 ≤ twn := by
    obtain ⟨p, hp, htwn⟩ := bind_ok_inv htwn
    replace hp := ckMul_ok hp
    subst hp
    replace htwn := ckMul_ok htwn
    subst htwn
    exact mul_nonneg (mul_nonneg (Int.natCast_nonneg _) hirn) (by decide)
  obtain ⟨twd, htwd, h⟩ := bind_ok_inv h
  replace htwd := ckMul_ok htwd
  subst htwd
  obtain ⟨ai, hai, h⟩ := bind_ok_inv h
  replace hai := ckDiv_ok hai
  subst hai
  obtain ⟨acc, hacc, h⟩ := bind_ok_inv h
  replace hacc := ckAdd_ok hacc
  subst hacc
  obtain ⟨ud, -, h⟩ := bind_ok_inv h
  obtain ⟨ch, -, h⟩ := bind_ok_inv h
  obtain ⟨raw, -, h⟩ := bind_ok_inv h
  replace h := pure_ok h
  subst h
  have hai0 : 0 ≤ twn.tdiv ((SECONDS_PER_YEAR : Int) * SCALAR_7) :=
    Int.tdiv_nonneg htwn0 (by decide)
  omega

theorem take_backstop_credit_ok_fields {r1 : ReserveData} {old_d_rate btr : Int}
    {rmid : ReserveData} (h : Interest.take_backstop_credit r1 old_d_rate btr = .ok rmid) :
    rmid.d_rate = r1.d_rate ∧ rmid.b_rate = r1.b_rate ∧ rmid.b_supply = r1.b_supply ∧
    rmid.ir_mod = r1.ir_mod := by
  unfold Interest.take_backstop_credit at h
  split at h
  · obtain ⟨ri, -, h⟩ := bind_ok_inv h
    obtain ⟨ie, -, h⟩ := bind_ok_inv h
    obtain ⟨bc, -, h⟩ := bind_ok_inv h
    replace h := pure_ok h
    subst h
    exact ⟨rfl, rfl, rfl, rfl⟩
  · replace h := pure_ok h
    subst h
    exact ⟨rfl, rfl, rfl, rfl⟩

theorem grow_b_rate_ok_fields {r2m : ReserveData} {btr accrual : Int} {rb : ReserveData}
    (h : Interest.grow_b_rate r2m btr accrual = .ok rb) :
    rb.d_rate = r2m.d_rate ∧ rb.b_supply = r2m.b_supply ∧
    (SCALAR_12 ≤ accrual → 0 ≤ r2m.b_rate → btr ≤ SCALAR_7 → r2m.b_rate ≤ rb.b_rate) := by
  unfold Interest.grow_b_rate at h
  dsimp only at h
  simp only [pure_bind] at h
  split at h
  · split at h
    · rename_i hbs hbtr0
      obtain ⟨lp, hlp, h⟩ := bind_ok_inv h
      replace hlp := ckSub_ok hlp
      subst hlp
      obtain ⟨aci, haci, h⟩ := bind_ok_inv h
      replace haci := ckSub_ok haci
      subst haci
      obtain ⟨li, hli, h⟩ := bind_ok_inv h
      obtain ⟨q, hq, hli⟩ := bind_ok_inv hli
      replace hq := ckMul_ok hq
      subst hq
      replace hli := ckDiv_ok hli
      subst hli
      obtain ⟨la, hla, h⟩ := bind_ok_inv h
      replace hla := ckAdd_ok hla
      subst hla
      obtain ⟨nbr, hnbr, h⟩ := bind_ok_inv h
      obtain ⟨q2, hq2, hnbr⟩ := bind_ok_inv hnbr
      replace hq2 := ckMul_ok hq2
      subst hq2
      replace hnbr := ckDiv_ok hnbr
      subst hnbr
      replace h := pure_ok h
      subst h
      refine ⟨rfl, rfl, ?_⟩
      intro ha hb hbtr
      have hli0 : 0 ≤ ((accrual - SCALAR_12) * (SCALAR_7 - btr)).tdiv SCALAR_7 :=
        Int.tdiv_nonneg (mul_nonneg (by omega) (by omega)) (by decide)
      exact le_mul_tdiv_scalar12 hb (by omega)
    · obtain ⟨nbr, hnbr, h⟩ := bind_ok_inv h
      obtain ⟨q2, hq2, hnbr⟩ := bind_ok_inv hnbr
      replace hq2 := ckMul_ok hq2
      subst hq2
      replace hnbr := ckDiv_ok hnbr
      subst hnbr
      replace h := pure_ok h
      subst h
      refine ⟨rfl, rfl, ?_⟩
      intro ha hb hbtr
      exact le_mul_tdiv_scalar12 hb ha
  · replace h := pure_ok h
    subst h
    exact ⟨rfl, rfl, fun _ _ _ => le_refl _⟩

theorem apply_accrual_ok_fields {reserve : ReserveData} {btr : Nat} {accrual new_ir_mod : Int}
    {ct : Nat} {r2 : ReserveData}
    (h : Interest.apply_accrual reserve btr accrual new_ir_mod ct = .ok r2) :
    r2.ir_mod = new_ir_mod ∧ r2.last_time = ct ∧ r2.b_supply = reserve.b_supply ∧
    (SCALAR_12 ≤ accrual → 0 ≤ reserve.d_rate → reserve.d_rate ≤ r2.d_rate) ∧
    (SCALAR_12 ≤ accrual → 0 ≤ reserve.b_rate → (btr : Int) ≤ SCALAR_7 →
      reserve.b_rate ≤ r2.b_rate) := by
  unfold Interest.apply_accrual at h
  dsimp only at h
  obtain ⟨ndr, hndr, h⟩ := bind_ok_inv h
  obtain ⟨p, hp, hndr⟩ := bind_ok_inv hndr
  replace hp := ckMul_ok hp
  subst hp
  replace hndr := ckDiv_ok hndr
  subst hndr
  obtain ⟨rmid, hrmid, h⟩ := bind_ok_inv h
  have hrmidf := take_backstop_credit_ok_fields hrmid
  obtain ⟨rb, hrb, h⟩ := bind_ok_inv h
  have hrbf := grow_b_rate_ok_fields hrb
  replace h := pure_ok h
  subst h
  refine ⟨rfl, rfl, ?_, ?_, ?_⟩
  · show rb.b_supply = reserve.b_supply
    rw [hrbf.2.1, hrmidf.2.2.1]
  · intro ha hd
    show reserve.d_rate ≤ rb.d_rate
    rw [hrbf.1, hrmidf.1]
    exact le_mul_tdiv_scalar12 hd ha
  · intro ha hb hbtr
    show reserve.b_rate ≤ rb.b_rate
    calc reserve.b_rate = rmid.b_rate := (hrmidf.2.1).symm
      _ ≤ rb.b_rate := hrbf.2.2 ha (hrmidf.2.1 ▸ hb) hbtr

/-- C2 (amended): `accrue_interest` returns the reserve completely
unchanged when `now <= last_time`; when time has passed but `b_supply = 0`
or the computed utilization is 0, every field except `last_time` is
unchanged and `last_time` is advanced to `now` (and stored) — contrary to
the claim, the stored reserve is not fully unchanged in those two cases. -/
theorem c2_accrue_interest_noop_cases (btr : Nat) (params : InterestRateParams)
    (reserve : ReserveData) (now : Nat) :
    (now ≤ reserve.last_time →
      Interest.accrue_interest btr params reserve now = .ok reserve) ∧
    (reserve.last_time < now → reserve.b_supply = 0 →
      Interest.accrue_interest btr params reserve now = .ok { reserve with last_time := now }) ∧
    (reserve.last_time < now →
      Interest.calculate_utilization_internal reserve = .ok 0 →
      Interest.accrue_interest btr params reserve now = .ok { reserve with last_time := now }) := by
  refine ⟨?_, ?_, ?_⟩
  · intro h
    simp [Interest.accrue_interest, h, pure, Except.pure, Bind.bind, Except.bind]
  · intro h1 h2
    simp [Interest.accrue_interest, Nat.not_le.mpr h1, h2, pure, Except.pure, Bind.bind,
      Except.bind]
  · intro h1 h2
    by_cases hb : reserve.b_supply = 0
    · simp [Interest.accrue_interest, Nat.not_le.mpr h1, hb, pure, Except.pure, Bind.bind,
        Except.bind]
    · simp [Interest.accrue_interest, Nat.not_le.mpr h1, hb, h2, Bind.bind, Except.bind,
        pure, Except.pure]

/-- C2 witness: at `now = 0 = last_time` the accrual returns the reserve
unchanged. -/
theorem c2_accrue_interest_noop_cases_witness :
    Interest.accrue_interest 0 Interest.default_params exReserveZeroSupply 0 =
      .ok exReserveZeroSupply :=
  (c2_accrue_interest_noop_cases 0 Interest.default_params exReserveZeroSupply 0).1
    (by decide)

/-- C3 (amended): with the additional hypothesis `d_supply ≥ 0` (the claim
omits it, see the counterexample), a successful `accrue_interest` never
decreases `d_rate`, and never decreases `b_rate` when `b_supply > 0`. -/
theorem c3_accrue_interest_rates_nondecreasing (btr : Nat) (params : InterestRateParams)
    (reserve : ReserveData) (now : Nat) (r2 : ReserveData)
    (hdr : 0 ≤ reserve.d_rate) (hbr : 0 ≤ reserve.b_rate) (him : 0 ≤ reserve.ir_mod)
    (hds : 0 ≤ reserve.d_supply) (hbtr : (btr : Int) ≤ SCALAR_7)
    (hok : Interest.accrue_interest btr params reserve now = .ok r2) :
    reserve.d_rate ≤ r2.d_rate ∧ (0 < reserve.b_supply → reserve.b_rate ≤ r2.b_rate) := by
  unfold Interest.accrue_interest at hok
  dsimp only at hok
  simp only [pure_bind] at hok
  split at hok
  · replace hok := pure_ok hok
    subst hok
    exact ⟨le_refl _, fun _ => le_refl _⟩
  rename_i hnle
  split at hok
  · replace hok := pure_ok hok
    subst hok
    exact ⟨le_of_eq rfl, fun _ => le_of_eq rfl⟩
  obtain ⟨u, hu, hok⟩ := bind_ok_inv hok
  have hun := util_ok_nonneg hds hdr hu
  split at hok
  · replace hok := pure_ok hok
    subst hok
    exact ⟨le_of_eq rfl, fun _ => le_of_eq rfl⟩
  obtain ⟨am, ham, hok⟩ := bind_ok_inv hok
  have hge := calc_accrual_ok_accrual_ge hun him ham
  have hf := apply_accrual_ok_fields hok
  exact ⟨hf.2.2.2.1 hge hdr, fun _ => hf.2.2.2.2 hge hbr hbtr⟩

/-- C3 witness: the spec's concrete reserve accrued over one year has
nondecreasing rates. -/
theorem c3_accrue_interest_rates_nondecreasing_witness :
    exReserveC6.d_rate ≤ exReserveC6Post.d_rate ∧
    exReserveC6.b_rate ≤ exReserveC6Post.b_rate := by
  have h := c3_accrue_interest_rates_nondecreasing 0 Interest.default_params exReserveC6
    SECONDS_PER_YEAR exReserveC6Post (by decide) (by decide) (by decide) (by decide)
    (by decide) (by decide)
  exact ⟨h.1, h.2 (by decide)⟩

/-- C4 (amended): a successful `Liquidations::fill_auction` always removes
the auction entry (UserLiquidation fills are all-or-nothing), while a
successful `BadDebt::fill_bad_debt_auction` removes the auction entry if
and only if the auction user's stored CDP has `d_tokens = 0` after the
fill — a partial bad-debt fill leaves the auction active with unchanged
bid/lot amounts. -/
theorem c4_fill_auction_removal :
    (∀ (oenv : OracleEnv) (ledger : Ledger) (c0 : Chain) (auction_id liquidator : Nat)
        (c2 : Chain),
        Liquidations.fill_auction oenv ledger c0 auction_id liquidator = .ok c2 →
        mget c2.stored.auction_data auction_id = none) ∧
    (∀ (ledger : Ledger) (c0 : Chain) (auction_id bidder : Nat) (amount : Int)
        (c2 : Chain) (ret : Int),
        BadDebt.fill_bad_debt_auction ledger c0 auction_id bidder amount = .ok (c2, ret) →
        ∃ au, mget c0.stored.auction_data auction_id = some au ∧
          (Storage.get_cdp c2 au.user).isSome ∧
          ∀ k, Storage.get_cdp c2 au.user = some k →
            (mget c2.stored.auction_data auction_id = none ↔ k.d_tokens = 0)) := by
  constructor
  · intro oenv ledger c0 auction_id liquidator c2 h
    unfold Liquidations.fill_auction at h
    simp only [Bind.bind, Except.bind, pure, Except.pure] at h
    repeat' split at h
    all_goals try exact Except.noConfusion h
    all_goals injection h with h
    all_goals subst h
    all_goals simp [Storage.set, mget_mdel_self]
  · intro ledger c0 auction_id bidder amount c2 ret h
    unfold BadDebt.fill_bad_debt_auction at h
    obtain ⟨auction, ha, h⟩ := bind_ok_inv h
    replace ha := ofOpt_ok ha
    simp only [Storage.get] at ha
    dsimp only at h
    split at h
    · exact absurd h (by simp [Bind.bind, Except.bind])
    obtain ⟨u0, -, h⟩ := bind_ok_inv h
    obtain ⟨bt, -, h⟩ := bind_ok_inv h
    obtain ⟨dc, -, h⟩ := bind_ok_inv h
    obtain ⟨cdp, hcdp, h⟩ := bind_ok_inv h
    replace hcdp := ofOpt_ok hcdp
    simp only [Storage.get_cdp] at hcdp
    cases hda : cdp.debt_asset with
    | none =>
      rw [hda] at h
      obtain ⟨y, hy, h⟩ := bind_ok_inv h
      replace hy := pure_ok hy
      subst hy
      replace h := pure_ok h
      simp only [Prod.mk.injEq] at h
      obtain ⟨hc2, -⟩ := h
      subst hc2
      refine ⟨auction, ha, ?_, ?_⟩
      · simp [Storage.set, Storage.get_cdp, hcdp]
      · intro k hk
        simp only [Storage.set, Storage.get_cdp] at hk
        rw [hcdp] at hk
        injection hk with hk
        subst hk
        by_cases hd0 : cdp.d_tokens = 0 <;>
          simp [Storage.set, Storage.get, hd0, mget_mdel_self, ha]
    | some asset =>
      rw [hda] at h
      obtain ⟨burn, -, h⟩ := bind_ok_inv h
      obtain ⟨y, hy, h⟩ := bind_ok_inv h
      replace hy := pure_ok hy
      subst hy
      replace h := pure_ok h
      simp only [Prod.mk.injEq] at h
      obtain ⟨hc2, -⟩ := h
      subst hc2
      refine ⟨auction, ha, ?_, ?_⟩
      · simp [Storage.set, Storage.get_cdp, Storage.set_pool_balance, Storage.set_cdp,
          Storage.get, mget_mset_self]
      · intro k hk
        simp only [Storage.set, Storage.get_cdp, Storage.set_pool_balance, Storage.set_cdp,
          Storage.get, mget_mset_self, Option.some.injEq] at hk
        subst hk
        by_cases hd0 : satSub cdp.d_tokens burn = 0 <;> by_cases hbt : (0 : Int) < bt <;>
          simp [hd0, hbt, Storage.set, Storage.get, Storage.set_pool_balance, Storage.set_cdp,
            mget_mdel_self, ha]

/-- C4 witness: the concrete successful liquidation fill removes auction 7,
and the concrete partial bad-debt fill leaves a stored CDP for the user. -/
theorem c4_fill_auction_removal_witness :
    mget exChainLiqPost.stored.auction_data 7 = none ∧
    (Storage.get_cdp exChainBadDebtPartialPost 1).isSome := by
  constructor
  · exact c4_fill_auction_removal.1 exOracle exLedgerFill exChainLiq 7 2 exChainLiqPost
      (by decide)
  · obtain ⟨au, hau, hsome, -⟩ := c4_fill_auction_removal.2 exLedgerBD exChainBadDebtPartial
      3 4 50 exChainBadDebtPartialPost 0 (by decide)
    have hau1 : au.user = 1 := by
      have h1 : (mget exChainBadDebtPartial.stored.auction_data 3).map AuctionData.user =
          some 1 := by decide
      rw [hau] at h1
      simpa using h1
    rwa [hau1] at hsome

/-- C7: rounding favors the protocol.  For `amount ≥ 0` and `b_rate > 0`,
whenever the conversions succeed, `to_b_token_down` never exceeds
`to_b_token_up`, and converting the deposited bTokens back to underlying
with `to_underlying_from_b_token` never yields more than the deposited
amount. -/
theorem c7_rounding_protocol_favoring (amount b_rate x : Int) (h0 : 0 ≤ amount)
    (hr : 0 < b_rate) (hd : rounding.to_b_token_down amount b_rate = .ok x) :
    (∀ y, rounding.to_b_token_up amount b_rate = .ok y → x ≤ y) ∧
    (∀ z, rounding.to_underlying_from_b_token x b_rate = .ok z → z ≤ amount) := by
  unfold rounding.to_b_token_down at hd
  obtain ⟨m, hm, hd⟩ := bind_ok_inv hd
  replace hm := ckMul_ok hm
  subst hm
  replace hd := ckDiv_ok hd
  have hS : (0 : Int) < SCALAR_12 := by decide
  have hnum : 0 ≤ amount * SCALAR_12 := mul_nonneg h0 (le_of_lt hS)
  have hx0 : 0 ≤ x := hd ▸ Int.tdiv_nonneg hnum (le_of_lt hr)
  constructor
  · intro y hy
    unfold rounding.to_b_token_up at hy
    obtain ⟨m2, hm2, hy⟩ := bind_ok_inv hy
    replace hm2 := ckMul_ok hm2
    subst hm2
    obtain ⟨s1, hs1, hy⟩ := bind_ok_inv hy
    replace hs1 := ckAdd_ok hs1
    subst hs1
    obtain ⟨s2, hs2, hy⟩ := bind_ok_inv hy
    replace hs2 := ckSub_ok hs2
    subst hs2
    replace hy := ckDiv_ok hy
    subst hy
    rw [hd]
    exact tdiv_le_tdiv hnum (by omega) hr
  · intro z hz
    unfold rounding.to_underlying_from_b_token at hz
    obtain ⟨p, hp, hz⟩ := bind_ok_inv hz
    replace hp := ckMul_ok hp
    subst hp
    replace hz := ckDiv_ok hz
    subst hz
    have hxb : x * b_rate ≤ amount * SCALAR_12 := by
      rw [hd, Int.tdiv_eq_ediv hnum (le_of_lt hr)]
      exact Int.ediv_mul_le (amount * SCALAR_12) (ne_of_gt hr)
    calc (x * b_rate).tdiv SCALAR_12
        ≤ (amount * SCALAR_12).tdiv SCALAR_12 :=
          tdiv_le_tdiv (mul_nonneg hx0 (le_of_lt hr)) hxb hS
      _ = amount := Int.mul_tdiv_cancel amount (by decide)

/-- C7 witness: at `amount = 7`, `b_rate = 3` the down-conversion is below
the up-conversion and the round trip returns 6 of the 7 deposited units. -/
theorem c7_rounding_protocol_favoring_witness :
    (2333333333333 : Int) ≤ 2333333333334 ∧ (6 : Int) ≤ 7 := by
  have h := c7_rounding_protocol_favoring 7 3 2333333333333 (by decide) (by decide) (by decide)
  exact ⟨h.1 2333333333334 (by decide), h.2 6 (by decide)⟩

/-- C8: oracle price validation.  For both `get_rwa_price` and
`get_crypto_price`: a non-positive price or a price more than 24 hours
older than the ledger timestamp yields the typed error
`InvalidOraclePrice`; otherwise (in particular when the price is exactly
24 hours old) the oracle's price and timestamp are returned. -/
theorem c8_oracle_price_validation (oenv : OracleEnv) (ledger : Ledger) (rwa_token asset : Nat)
    (pd : PriceData) :
    (oenv.rwa_price rwa_token = some pd → pd.price ≤ 0 →
      Oracles.get_rwa_price oenv ledger rwa_token = .error .InvalidOraclePrice) ∧
    (oenv.rwa_price rwa_token = some pd → pd.timestamp + 24 * 60 * 60 < ledger.timestamp →
      Oracles.get_rwa_price oenv ledger rwa_token = .error .InvalidOraclePrice) ∧
    (oenv.rwa_price rwa_token = some pd → 0 < pd.price →
      ledger.timestamp ≤ pd.timestamp + 24 * 60 * 60 →
      Oracles.get_rwa_price oenv ledger rwa_token = .ok pd) ∧
    (oenv.crypto_price asset = some pd → pd.price ≤ 0 →
      Oracles.get_crypto_price oenv ledger asset = .error .InvalidOraclePrice) ∧
    (oenv.crypto_price asset = some pd → pd.timestamp + 24 * 60 * 60 < ledger.timestamp →
      Oracles.get_crypto_price oenv ledger asset = .error .InvalidOraclePrice) ∧
    (oenv.crypto_price asset = some pd → 0 < pd.price →
      ledger.timestamp ≤ pd.timestamp + 24 * 60 * 60 →
      Oracles.get_crypto_price oenv ledger asset = .ok pd) := by
  refine ⟨?_, ?_, ?_, ?_, ?_, ?_⟩
  · intro h hp
    simp [Oracles.get_rwa_price, ofOpt, h, hp, pure, Except.pure, Bind.bind, Except.bind]
  · intro h hs
    by_cases hp : pd.price ≤ 0 <;>
      simp [Oracles.get_rwa_price, ofOpt, h, hs, hp, pure, Except.pure, Bind.bind, Except.bind]
  · intro h hp hs
    simp [Oracles.get_rwa_price, ofOpt, h, not_le.mpr hp, Nat.not_lt.mpr hs, pure,
      Except.pure, Bind.bind, Except.bind]
  · intro h hp
    simp [Oracles.get_crypto_price, ofOpt, h, hp, pure, Except.pure, Bind.bind, Except.bind]
  · intro h hs
    by_cases hp : pd.price ≤ 0 <;>
      simp [Oracles.get_crypto_price, ofOpt, h, hs, hp, pure, Except.pure, Bind.bind,
        Except.bind]
  · intro h hp hs
    simp [Oracles.get_crypto_price, ofOpt, h, not_le.mpr hp, Nat.not_lt.mpr hs, pure,
      Except.pure, Bind.bind, Except.bind]

/-- C8 witness: the fixture price with timestamp 0 queried at ledger time
exactly 24 hours later is still accepted and returned. -/
theorem c8_oracle_price_validation_witness :
    Oracles.get_rwa_price exOracle { timestamp := 86400, sequence := 0 } 10 =
      .ok { price := 10000000, timestamp := 0 } :=
  (c8_oracle_price_validation exOracle { timestamp := 86400, sequence := 0 } 10 5
    { price := 10000000, timestamp := 0 }).2.2.1 (by decide) (by decide) (by decide)

/-- C9: the interest-rate modifier stays within
`[SCALAR_7/10, SCALAR_7*10]`: a `calc_accrual` over a positive time delta
clamps the new modifier into the range for all inputs, and every
successful `accrue_interest` call preserves the range of the stored
reserve's `ir_mod`. -/
theorem c9_ir_mod_bounded :
    (∀ (params : InterestRateParams) (cur_util ir_mod : Int) (last_time current_time : Nat)
        (am : Int × Int), last_time < current_time →
        Interest.calc_accrual params cur_util ir_mod last_time current_time = .ok am →
        SCALAR_7 / 10 ≤ am.2 ∧ am.2 ≤ SCALAR_7 * 10) ∧
    (∀ (btr : Nat) (params : InterestRateParams) (reserve : ReserveData) (now : Nat)
        (r2 : ReserveData),
        Interest.accrue_interest btr params reserve now = .ok r2 →
        SCALAR_7 / 10 ≤ reserve.ir_mod → reserve.ir_mod ≤ SCALAR_7 * 10 →
        SCALAR_7 / 10 ≤ r2.ir_mod ∧ r2.ir_mod ≤ SCALAR_7 * 10) := by
  constructor
  · intro params cur_util ir_mod last_time current_time am hlt hok
    exact calc_accrual_ok_irmod_bounds hlt hok
  · intro btr params reserve now r2 hok hlo hhi
    unfold Interest.accrue_interest at hok
    dsimp only at hok
    simp only [pure_bind] at hok
    split at hok
    · replace hok := pure_ok hok
      subst hok
      exact ⟨hlo, hhi⟩
    rename_i hnle
    split at hok
    · replace hok := pure_ok hok
      subst hok
      exact ⟨hlo, hhi⟩
    obtain ⟨u, hu, hok⟩ := bind_ok_inv hok
    split at hok
    · replace hok := pure_ok hok
      subst hok
      exact ⟨hlo, hhi⟩
    obtain ⟨am, ham, hok⟩ := bind_ok_inv hok
    have hb := calc_accrual_ok_irmod_bounds (by omega) ham
    have hf := apply_accrual_ok_fields hok
    rw [hf.1]
    exact hb

/-- C9 witness: the spec's concrete accrual lands the modifier exactly at
the upper clamp `SCALAR_7 * 10`, inside the range. -/
theorem c9_ir_mod_bounded_witness :
    SCALAR_7 / 10 ≤ exReserveC6Post.ir_mod ∧ exReserveC6Post.ir_mod ≤ SCALAR_7 * 10 :=
  c9_ir_mod_bounded.2 0 Interest.default_params exReserveC6 SECONDS_PER_YEAR exReserveC6Post
    (by decide) (by decide) (by decide)
